import Mathlib

/-!
Shallow embedding of `volo-http/src/extension/mod.rs`.

The source defines two generic components:

* `Extension<T>(pub T)` — a `Layer` that, when attached to an inner service
  `S`, yields `ExtensionService { inner, ext: self.0 }`.
* `ExtensionService<I, T>` — a `Service` whose `call(&self, cx, req)` runs
  `cx.extensions_mut().insert(self.ext.clone()); self.inner.call(cx, req).await`.

We model the per-call context as a structure carrying a type-indexed
extension container plus an opaque remainder `rest` (the other fields of the
concrete `Context`), a service as a pure state-passing function
`Cx → Req → Cx × Except Err Resp` (the async layer is irrelevant to the
functional behaviour), and Rust's `Clone`/`TypeId`/`dyn Any` erasure by an
explicit clone function, a numeric type identifier, and an embedding of the
typed value into an erased value universe `Val`.
-/

namespace VoloExtension

/-- Type identifier, modelling Rust's `std::any::TypeId` as an opaque key. -/
abbrev TypeId := Nat

/-- Modelled from the spec: the context's type-indexed extension container
(an external collaborator of this crate; the spec describes it as a
heterogeneous map from type identity to one stored value, supporting
insert-with-overwrite and typed retrieval).  We represent it as an
association list from `TypeId` to erased values. -/
def Extensions (Val : Type) : Type := List (TypeId × Val)

/-- Modelled from the spec: `insert` stores a value keyed by its type,
unconditionally overwriting any prior value of the same type (last-write-wins,
at most one entry per type key). -/
def Extensions.insert {Val : Type} (ext : Extensions Val) (t : TypeId) (v : Val) :
    Extensions Val :=
  (t, v) :: ext.filter fun p => p.1 != t

/-- Modelled from the spec: typed retrieval — the stored value for a type key,
if present. -/
def Extensions.get {Val : Type} (ext : Extensions Val) (t : TypeId) : Option Val :=
  (ext.find? fun p => p.1 == t).map fun p => p.2

/-- The per-call context: the extension container reachable through
`extensions_mut()`, plus the rest of the concrete context's state, which this
component never touches. -/
structure Cx (Val Rest : Type) where
  extensions : Extensions Val
  rest : Rest

/-- The `Service` abstraction: given a mutable per-call context and a request,
produce a response or an error.  `&mut Cx` becomes explicit state passing. -/
def Service (CxT Req Resp Err : Type) : Type :=
  CxT → Req → CxT × Except Err Resp

/-- `pub struct Extension<T>(pub T);` — the value-injection configuration. -/
structure Extension (T : Type) where
  val : T

/-- `pub struct ExtensionService<I, T> { inner: I, ext: T }`. -/
structure ExtensionService (I T : Type) where
  inner : I
  ext : T

/-- `impl Layer<S> for Extension<T> { fn layer(self, inner: S) -> Self::Service
{ ExtensionService { inner, ext: self.0 } } }`. -/
def Extension.layer {S T : Type} (self : Extension T) (s : S) :
    ExtensionService S T :=
  { inner := s, ext := self.val }

/-- `ExtensionService::call`: `cx.extensions_mut().insert(self.ext.clone());
self.inner.call(cx, req).await`.  The bound `T: Clone` appears as the `clone`
function; the typed insert keyed by `TypeId::of::<T>()` appears as `t` and the
erasure `embed`. -/
def ExtensionService.call {Val Rest Req Resp Err T : Type}
    (clone : T → T) (t : TypeId) (embed : T → Val)
    (self : ExtensionService (Service (Cx Val Rest) Req Resp Err) T)
    (cx : Cx Val Rest) (req : Req) : Cx Val Rest × Except Err Resp :=
  self.inner
    { cx with extensions := cx.extensions.insert t (embed (clone self.ext)) }
    req

/-- Shorthand for the context after the injection step. -/
def injectCx {Val Rest T : Type} (clone : T → T) (t : TypeId) (embed : T → Val)
    (v : T) (cx : Cx Val Rest) : Cx Val Rest :=
  { cx with extensions := cx.extensions.insert t (embed (clone v)) }

/-- The spec's own description of the wrapped pipeline (spec section 8, first
bullet): "the overall result equals exactly what the inner unit alone would
return for (context-with-v, r)", the context holding a duplicate of `v` keyed
by `T`.  Used as the reference side of the refinement claim. -/
def specWrappedUnit {Val Rest Req Resp Err T : Type}
    (clone : T → T) (t : TypeId) (embed : T → Val)
    (s : Service (Cx Val Rest) Req Resp Err) (v : T) :
    Service (Cx Val Rest) Req Resp Err :=
  fun cx req => s (injectCx clone t embed v cx) req

/-- A probe service that reports the extension container it observes;
used to state what a downstream stage can see. -/
def spyService (Val Rest Req Err : Type) :
    Service (Cx Val Rest) Req (Extensions Val) Err :=
  fun cx _ => (cx, Except.ok cx.extensions)

/- Container lemmas (behaviour of the collaborator contract). -/

/-- Retrieval after inserting the same key returns the inserted value,
regardless of prior contents. -/
theorem Extensions.get_insert_same {Val : Type} (ext : Extensions Val)
    (t : TypeId) (v : Val) : (ext.insert t v).get t = some v := by
  simp [Extensions.insert, Extensions.get, List.find?_cons]

/-- Filtering out a key and then searching for a different key is the same as
searching the original list. -/
theorem find_filter_other {Val : Type} (t1 t2 : TypeId) (h : t1 ≠ t2)
    (l : List (TypeId × Val)) :
    (l.filter fun p => p.1 != t2).find? (fun p => p.1 == t1)
      = l.find? fun p => p.1 == t1 := by
  induction l with
  | nil => rfl
  | cons a l ih =>
    have h3 : (t2 == t1) = false := by simp [Ne.symm h]
    by_cases h1 : a.1 = t1
    · have h2 : (a.1 != t2) = true := by simp [h1, h]
      simp [List.filter_cons, List.find?_cons, h1, h2, h]
    · by_cases h2 : a.1 = t2
      · simp [List.filter_cons, List.find?_cons, h1, h2, h3, ih]
      · simp [List.filter_cons, List.find?_cons, h1, h2, ih]

/-- Retrieval at a different key is unaffected by an insertion. -/
theorem Extensions.get_insert_other {Val : Type} (ext : Extensions Val)
    (t1 t2 : TypeId) (v : Val) (h : t1 ≠ t2) :
    (ext.insert t2 v).get t1 = ext.get t1 := by
  have hne : (t2 == t1) = false := by simp [Ne.symm h]
  simp [Extensions.insert, Extensions.get, List.find?_cons, hne,
    find_filter_other t1 t2 h]

/-- After filtering a key out, no entry with that key survives. -/
theorem filter_after_remove {Val : Type} (t : TypeId) (l : List (TypeId × Val)) :
    ((l.filter fun p => p.1 != t).filter fun p => p.1 == t) = [] := by
  induction l with
  | nil => rfl
  | cons a l ih =>
    by_cases hx : a.1 = t
    · simp [List.filter_cons, hx, ih]
    · simp [List.filter_cons, hx, ih]

/-- Inserting a key leaves exactly one entry with that key: the new one. -/
theorem filter_insert_same {Val : Type} (ext : Extensions Val) (t : TypeId)
    (v : Val) :
    ((ext.insert t v).filter fun p => p.1 == t) = [(t, v)] := by
  simp [Extensions.insert, List.filter_cons, filter_after_remove]

/-- Inserting twice at the same key collapses to the second insertion. -/
theorem Extensions.insert_insert_same {Val : Type} (ext : Extensions Val)
    (t : TypeId) (v1 v2 : Val) :
    (ext.insert t v1).insert t v2 = ext.insert t v2 := by
  simp [Extensions.insert, List.filter_cons, List.filter_filter]

/- Concrete instances used by witnesses. -/

/-- A concrete inner service over `Int`-valued extensions that echoes the
request. -/
def wEchoService : Service (Cx Int Unit) Nat Nat String :=
  fun cx req => (cx, Except.ok req)

/-- A concrete inner service that always fails, leaving the context as it
received it. -/
def wFailService : Service (Cx Int Unit) Nat Nat String :=
  fun cx _ => (cx, Except.error "boom")

/-- A concrete inner service over a sum universe holding both integers and
strings. -/
def wSumService : Service (Cx (Int ⊕ String) Unit) Nat Nat String :=
  fun cx req => (cx, Except.ok req)

/-- Claim C1: for every injected value `v`, inner service `s`, context `cx`
and request `r`, the wrapped service returns exactly what the inner service
alone returns on the context with a duplicate of `v` inserted (the spec-side
pipeline `specWrappedUnit`) — for every context, fresh or not — and when `cx`
holds no prior value of `v`'s type the inner service observes the duplicate
in its context; apart from that extra value the pipeline behaves as if the
stage were absent. -/
theorem wrapped_refines_inner_with_injected_value
    {Val Rest Req Resp Err T : Type}
    (clone : T → T) (t : TypeId) (embed : T → Val)
    (s : Service (Cx Val Rest) Req Resp Err) (v : T)
    (cx : Cx Val Rest) (req : Req) :
    ExtensionService.call clone t embed { inner := s, ext := v } cx req
        = specWrappedUnit clone t embed s v cx req
      ∧ (cx.extensions.get t = none →
          (injectCx clone t embed v cx).extensions.get t
            = some (embed (clone v))) :=
  ⟨rfl, fun _ => Extensions.get_insert_same _ _ _⟩

/-- Witness for C1 at a concrete fresh context: the return-equality holds and
the fresh-context condition is discharged, yielding the observed duplicate. -/
theorem wrapped_refines_inner_with_injected_value_witness :
    (ExtensionService.call id 0 id { inner := wEchoService, ext := 5 }
        (⟨[], ()⟩ : Cx Int Unit) 3
        = specWrappedUnit id 0 id wEchoService 5 ⟨[], ()⟩ 3)
    ∧ ((⟨[], ()⟩ : Cx Int Unit).extensions.get 0 = none)
    ∧ (injectCx id 0 id 5 (⟨[], ()⟩ : Cx Int Unit)).extensions.get 0 = some 5 :=
  ⟨(wrapped_refines_inner_with_injected_value id 0 id wEchoService 5
      ⟨[], ()⟩ 3).1,
   rfl,
   (wrapped_refines_inner_with_injected_value id 0 id wEchoService 5
      ⟨[], ()⟩ 3).2 rfl⟩

/-- Claim C2: each invocation of `ExtensionService.call` performs exactly:
clone the held value, insert the clone into the context's extension container
keyed by its type — unconditionally overwriting any prior value of that type —
then forward the context (its other state untouched) and the request unchanged
to the inner service, returning the inner result verbatim. -/
theorem call_clones_inserts_then_delegates
    {Val Rest Req Resp Err T : Type}
    (clone : T → T) (t : TypeId) (embed : T → Val)
    (self : ExtensionService (Service (Cx Val Rest) Req Resp Err) T)
    (cx : Cx Val Rest) (req : Req) :
    ExtensionService.call clone t embed self cx req
        = self.inner
            { extensions := cx.extensions.insert t (embed (clone self.ext)),
              rest := cx.rest } req
      ∧ ∀ ext : Extensions Val,
          (ext.insert t (embed (clone self.ext))).get t
            = some (embed (clone self.ext)) :=
  ⟨rfl, fun ext => Extensions.get_insert_same ext _ _⟩

/-- Claim C3: whatever result (success or error) the inner service produces on
the injected context, the wrapped service returns that exact result: no error
is introduced, and no success is converted to an error or vice versa. -/
theorem call_passes_result_through
    {Val Rest Req Resp Err T : Type}
    (clone : T → T) (t : TypeId) (embed : T → Val)
    (s : Service (Cx Val Rest) Req Resp Err) (v : T)
    (cx : Cx Val Rest) (req : Req)
    (res : Cx Val Rest × Except Err Resp)
    (hs : s (injectCx clone t embed v cx) req = res) :
    ExtensionService.call clone t embed { inner := s, ext := v } cx req = res :=
  hs

/-- Witness for C3 with an inner service that fails: the error comes back
verbatim. -/
theorem call_passes_result_through_witness :
    (wFailService (injectCx id 0 id 7 (⟨[], ()⟩ : Cx Int Unit)) 3
        = (⟨[(0, 7)], ()⟩, Except.error "boom"))
    ∧ ExtensionService.call id 0 id { inner := wFailService, ext := 7 }
        (⟨[], ()⟩ : Cx Int Unit) 3
        = (⟨[(0, 7)], ()⟩, Except.error "boom") :=
  ⟨rfl, call_passes_result_through id 0 id wFailService 7 ⟨[], ()⟩ 3 _ rfl⟩

/-- Claim C4: `Extension.layer` always succeeds (it is a total function),
accepts any value and inner service, and returns the `ExtensionService` whose
`inner` field is exactly the given service and whose held value is exactly the
configured value. -/
theorem layer_returns_service_with_exact_fields {S T : Type}
    (cfg : Extension T) (s : S) :
    (cfg.layer s).inner = s ∧ (cfg.layer s).ext = cfg.val :=
  ⟨rfl, rfl⟩

/-- Claim C5: stacking two injection stages of the same type, so that `v1` is
inserted and then `v2`, delivers to the inner service a context in which only
`v2` is visible for that type: retrieval yields `v2`'s duplicate, and the
second insertion overwrites the first rather than accumulating. -/
theorem stacked_same_type_last_write_wins
    {Val Rest Req Resp Err T : Type}
    (clone : T → T) (t : TypeId) (embed : T → Val)
    (s : Service (Cx Val Rest) Req Resp Err) (v1 v2 : T)
    (cx : Cx Val Rest) (req : Req) :
    ExtensionService.call clone t embed
        { inner := fun cx1 req1 =>
            ExtensionService.call clone t embed { inner := s, ext := v2 } cx1 req1,
          ext := v1 } cx req
        = s { cx with extensions :=
              ((cx.extensions.insert t (embed (clone v1))).insert t
                (embed (clone v2))) } req
      ∧ ((cx.extensions.insert t (embed (clone v1))).insert t
            (embed (clone v2))).get t = some (embed (clone v2))
      ∧ (cx.extensions.insert t (embed (clone v1))).insert t (embed (clone v2))
          = cx.extensions.insert t (embed (clone v2)) :=
  ⟨rfl, Extensions.get_insert_same _ _ _, Extensions.insert_insert_same _ _ _ _⟩

/-- Claim C6: stacking two injection stages holding values of two distinct
types on the same inner service makes both values simultaneously retrievable
by their respective types from the same call's context. -/
theorem stacked_distinct_types_coexist
    {Val Rest Req Resp Err T1 T2 : Type}
    (clone1 : T1 → T1) (t1 : TypeId) (embed1 : T1 → Val)
    (clone2 : T2 → T2) (t2 : TypeId) (embed2 : T2 → Val)
    (s : Service (Cx Val Rest) Req Resp Err) (v1 : T1) (v2 : T2)
    (cx : Cx Val Rest) (req : Req) (h : t1 ≠ t2) :
    ExtensionService.call clone1 t1 embed1
        { inner := fun cx1 req1 =>
            ExtensionService.call clone2 t2 embed2 { inner := s, ext := v2 } cx1 req1,
          ext := v1 } cx req
        = s { cx with extensions :=
              ((cx.extensions.insert t1 (embed1 (clone1 v1))).insert t2
                (embed2 (clone2 v2))) } req
      ∧ ((cx.extensions.insert t1 (embed1 (clone1 v1))).insert t2
            (embed2 (clone2 v2))).get t2 = some (embed2 (clone2 v2))
      ∧ ((cx.extensions.insert t1 (embed1 (clone1 v1))).insert t2
            (embed2 (clone2 v2))).get t1 = some (embed1 (clone1 v1)) := by
  refine ⟨rfl, Extensions.get_insert_same _ _ _, ?_⟩
  rw [Extensions.get_insert_other _ t1 t2 _ h]
  exact Extensions.get_insert_same _ _ _

/-- The container produced by inserting the integer `1` at key `0` and then
the string `"x"` at key `1` into an empty container. -/
def wSumContainer : Extensions (Int ⊕ String) :=
  Extensions.insert (Extensions.insert [] 0 (Sum.inl 1)) 1 (Sum.inr "x")

/-- Witness for C6 with the spec's example: the integer `1` and the string
`"x"`, at distinct type keys, both retrievable. -/
theorem stacked_distinct_types_coexist_witness :
    ((0 : TypeId) ≠ 1)
    ∧ (ExtensionService.call id 0 Sum.inl
          { inner := fun cx1 req1 =>
              ExtensionService.call id 1 Sum.inr
                { inner := wSumService, ext := "x" } cx1 req1,
            ext := (1 : Int) } (⟨[], ()⟩ : Cx (Int ⊕ String) Unit) 3
          = wSumService
              { (⟨[], ()⟩ : Cx (Int ⊕ String) Unit) with
                  extensions := wSumContainer } 3
        ∧ wSumContainer.get 1 = some (Sum.inr "x")
        ∧ wSumContainer.get 0 = some (Sum.inl 1)) :=
  ⟨by decide, stacked_distinct_types_coexist id 0 Sum.inl id 1 Sum.inr
    wSumService 1 "x" ⟨[], ()⟩ 3 (by decide)⟩

/-- Claim C7: within one invocation, the insertion happens before the inner
service observes the context: an inner service that reports the container it
sees always reports the post-insertion container, which already holds the
duplicated value. -/
theorem insertion_happens_before_inner_observes
    {Val Rest Req Err T : Type}
    (clone : T → T) (t : TypeId) (embed : T → Val) (v : T)
    (cx : Cx Val Rest) (req : Req) :
    (ExtensionService.call clone t embed
        { inner := spyService Val Rest Req Err, ext := v } cx req).2
        = Except.ok (cx.extensions.insert t (embed (clone v)))
      ∧ (cx.extensions.insert t (embed (clone v))).get t = some (embed (clone v)) :=
  ⟨rfl, Extensions.get_insert_same _ _ _⟩

/- Multi-call and interleaved execution models. -/

/-- The unit serving a list of independent calls, each with its own context;
models the unit's lifetime of many invocations. -/
def runMany {Val Rest Req Resp Err T : Type}
    (clone : T → T) (t : TypeId) (embed : T → Val)
    (self : ExtensionService (Service (Cx Val Rest) Req Resp Err) T)
    (inputs : List (Cx Val Rest × Req)) : List (Cx Val Rest × Except Err Resp) :=
  inputs.map fun p => ExtensionService.call clone t embed self p.1 p.2

/-- State-threaded form of `call`.  The source's `call` takes `&self` and
contains no statement writing to `self`, so the unit's fields flow through a
call unchanged; this definition makes that explicit. -/
def ExtensionService.callThreaded {Val Rest Req Resp Err T : Type}
    (clone : T → T) (t : TypeId) (embed : T → Val)
    (self : ExtensionService (Service (Cx Val Rest) Req Resp Err) T)
    (cx : Cx Val Rest) (req : Req) :
    ExtensionService (Service (Cx Val Rest) Req Resp Err) T
      × (Cx Val Rest × Except Err Resp) :=
  (self, ExtensionService.call clone t embed self cx req)

/-- Progress of one in-flight call: before the stage ran, past the insertion
step, or completed with the inner service's result. -/
inductive TaskState (Val Rest Req Resp Err : Type) where
  | start (cx : Cx Val Rest) (req : Req)
  | inserted (cx : Cx Val Rest) (req : Req)
  | finished (cx : Cx Val Rest) (res : Except Err Resp)

/-- One atomic step of a single call: first the insertion into that call's
own context, then the delegation to the inner service. -/
def taskStep {Val Rest Req Resp Err T : Type}
    (clone : T → T) (t : TypeId) (embed : T → Val)
    (self : ExtensionService (Service (Cx Val Rest) Req Resp Err) T) :
    TaskState Val Rest Req Resp Err → TaskState Val Rest Req Resp Err
  | .start cx req =>
      .inserted
        { cx with extensions := cx.extensions.insert t (embed (clone self.ext)) }
        req
  | .inserted cx req =>
      .finished (self.inner cx req).1 (self.inner cx req).2
  | .finished cx res => .finished cx res

/-- A pool of concurrently in-flight calls, one task per index, each owning
its own context; a schedule is an arbitrary interleaving of single steps of
arbitrary tasks. -/
def execSched {Val Rest Req Resp Err T : Type}
    (clone : T → T) (t : TypeId) (embed : T → Val)
    (self : ExtensionService (Service (Cx Val Rest) Req Resp Err) T)
    (st : Nat → TaskState Val Rest Req Resp Err) :
    List Nat → Nat → TaskState Val Rest Req Resp Err
  | [] => st
  | i :: rest =>
      execSched clone t embed self
        (Function.update st i (taskStep clone t embed self (st i))) rest

/-- A step of one task never changes another task's state, so an interleaved
schedule acts on each task exactly as that task's own steps, as many of them
as the schedule contains. -/
theorem execSched_apply {Val Rest Req Resp Err T : Type}
    (clone : T → T) (t : TypeId) (embed : T → Val)
    (self : ExtensionService (Service (Cx Val Rest) Req Resp Err) T)
    (sched : List Nat) (st : Nat → TaskState Val Rest Req Resp Err) (i : Nat) :
    execSched clone t embed self st sched i
      = (taskStep clone t embed self)^[sched.count i] (st i) := by
  induction sched generalizing st with
  | nil => simp [execSched]
  | cons j rest ih =>
    rw [execSched, ih]
    by_cases hij : i = j
    · subst hij
      rw [Function.update_same, List.count_cons_self,
        Function.iterate_succ_apply]
    · rw [Function.update_noteq hij, List.count_cons_of_ne]
      exact fun h => hij h

/-- A completed task stays completed. -/
theorem taskStep_iterate_finished {Val Rest Req Resp Err T : Type}
    (clone : T → T) (t : TypeId) (embed : T → Val)
    (self : ExtensionService (Service (Cx Val Rest) Req Resp Err) T)
    (k : Nat) (cx : Cx Val Rest) (res : Except Err Resp) :
    (taskStep clone t embed self)^[k] (TaskState.finished cx res)
      = TaskState.finished cx res := by
  induction k with
  | zero => rfl
  | succ k ih => rw [Function.iterate_succ_apply]; exact ih

/-- Two or more steps drive a fresh task to completion, with exactly the
standalone result of `call` on that task's own context and request. -/
theorem taskStep_iterate_start {Val Rest Req Resp Err T : Type}
    (clone : T → T) (t : TypeId) (embed : T → Val)
    (self : ExtensionService (Service (Cx Val Rest) Req Resp Err) T)
    (n : Nat) (hn : 2 ≤ n) (cx : Cx Val Rest) (req : Req) :
    (taskStep clone t embed self)^[n] (TaskState.start cx req)
      = TaskState.finished (ExtensionService.call clone t embed self cx req).1
          (ExtensionService.call clone t embed self cx req).2 := by
  obtain ⟨k, rfl⟩ : ∃ k, n = k + 2 := ⟨n - 2, by omega⟩
  rw [Function.iterate_add_apply]
  exact taskStep_iterate_finished clone t embed self k _ _

/-- Claim C8: the unit is stateless — a call leaves the unit's fields (inner
service and held value) unchanged, every call in a run is computed from the
same unit value and only its own input, and a call's result does not depend
on how many calls preceded it. -/
theorem unit_is_stateless_across_calls {Val Rest Req Resp Err T : Type}
    (clone : T → T) (t : TypeId) (embed : T → Val)
    (self : ExtensionService (Service (Cx Val Rest) Req Resp Err) T)
    (inputs : List (Cx Val Rest × Req)) (i : Nat)
    (cx : Cx Val Rest) (req : Req) :
    (ExtensionService.callThreaded clone t embed self cx req).1 = self
      ∧ (runMany clone t embed self inputs)[i]?
          = (inputs[i]?).map
              (fun p => ExtensionService.call clone t embed self p.1 p.2)
      ∧ ∀ pre : List (Cx Val Rest × Req),
          (runMany clone t embed self (pre ++ inputs))[pre.length + i]?
            = (runMany clone t embed self inputs)[i]? := by
  refine ⟨rfl, by simp [runMany], fun pre => ?_⟩
  simp [runMany, List.getElem?_append_right]

/-- Claim C9: non-interference of concurrent calls — under any interleaving
of the atomic steps of many in-flight calls to the same unit, a call stepped
to completion ends exactly in the standalone result of `call` on its own
context and request: it observes only its own inserted duplicate and no other
call's context state. -/
theorem concurrent_calls_noninterference {Val Rest Req Resp Err T : Type}
    (clone : T → T) (t : TypeId) (embed : T → Val)
    (self : ExtensionService (Service (Cx Val Rest) Req Resp Err) T)
    (init : Nat → TaskState Val Rest Req Resp Err) (sched : List Nat) (i : Nat)
    (cx : Cx Val Rest) (req : Req)
    (hinit : init i = TaskState.start cx req)
    (hcount : 2 ≤ sched.count i) :
    execSched clone t embed self init sched i
      = TaskState.finished (ExtensionService.call clone t embed self cx req).1
          (ExtensionService.call clone t embed self cx req).2 := by
  rw [execSched_apply, hinit]
  exact taskStep_iterate_start clone t embed self _ hcount cx req

/-- Initial pool for the C9 witness: every task starts fresh on its own empty
context, task `n` carrying request `n`. -/
def wInitPool (n : Nat) : TaskState Int Unit Nat Nat String :=
  TaskState.start ⟨[], ()⟩ n

/-- Witness for C9: an interleaved schedule of two tasks; task 0 completes
with exactly its standalone result. -/
theorem concurrent_calls_noninterference_witness :
    (wInitPool 0 = TaskState.start ⟨[], ()⟩ 0)
    ∧ 2 ≤ ([0, 1, 0, 1] : List Nat).count 0
    ∧ execSched id 0 id { inner := wEchoService, ext := 9 } wInitPool
        [0, 1, 0, 1] 0
      = TaskState.finished
          (ExtensionService.call id 0 id { inner := wEchoService, ext := 9 }
            ⟨[], ()⟩ 0).1
          (ExtensionService.call id 0 id { inner := wEchoService, ext := 9 }
            ⟨[], ()⟩ 0).2 :=
  ⟨rfl, by decide,
    concurrent_calls_noninterference id 0 id _ wInitPool [0, 1, 0, 1] 0
      ⟨[], ()⟩ 0 rfl (by decide)⟩

/-- Claim C10: no rollback on error — the insertion is performed
unconditionally before delegation and is never undone by the wrapper: if the
inner service fails (and itself leaves the entry alone), the wrapped call
returns that error and the duplicated value is still in the returned
context's extension container. -/
theorem no_rollback_on_error {Val Rest Req Resp Err T : Type}
    (clone : T → T) (t : TypeId) (embed : T → Val)
    (s : Service (Cx Val Rest) Req Resp Err) (v : T)
    (cx cx2 : Cx Val Rest) (req : Req) (e : Err)
    (hs : s (injectCx clone t embed v cx) req = (cx2, Except.error e))
    (hkeep : cx2.extensions.get t = (injectCx clone t embed v cx).extensions.get t) :
    ExtensionService.call clone t embed { inner := s, ext := v } cx req
        = (cx2, Except.error e)
      ∧ cx2.extensions.get t = some (embed (clone v)) := by
  refine ⟨hs, ?_⟩
  rw [hkeep]
  exact Extensions.get_insert_same _ _ _

/-- Witness for C10: a failing inner service; after the error the inserted
value is still present in the returned context. -/
theorem no_rollback_on_error_witness :
    (wFailService (injectCx id 0 id 11 (⟨[], ()⟩ : Cx Int Unit)) 4
        = (⟨[(0, 11)], ()⟩, Except.error "boom"))
    ∧ ((⟨[(0, 11)], ()⟩ : Cx Int Unit).extensions.get 0
        = (injectCx id 0 id 11 (⟨[], ()⟩ : Cx Int Unit)).extensions.get 0)
    ∧ (ExtensionService.call id 0 id { inner := wFailService, ext := 11 }
          (⟨[], ()⟩ : Cx Int Unit) 4
          = (⟨[(0, 11)], ()⟩, Except.error "boom")
        ∧ (⟨[(0, 11)], ()⟩ : Cx Int Unit).extensions.get 0 = some 11) :=
  ⟨rfl, rfl,
    no_rollback_on_error id 0 id wFailService 11 ⟨[], ()⟩ ⟨[(0, 11)], ()⟩ 4
      "boom" rfl rfl⟩

end VoloExtension
